import Mathlib

/-!
Verification development for the judge-orchestration core of the
`llm-as-judge` repository.

The Lean definitions below are a shallow embedding of the Python source:

* `src/app/schemas/models.py` — the pydantic models `Judge` and `Assembly`
  together with their field validators (`Judge.validate`,
  `Assembly.validate`, `metapromptValid`).
* `src/app/judges.py` — `ConcreteJudge.evaluate` (pure core:
  `ConcreteJudge.judgeVerdict`, `collectContent`, `computeResult`),
  `SuperJudge` (`register_judge`, `notify`, `final_verdict`, `evaluate`),
  `JudgeEvaluationPlan.run_plan` (`runSubJudges`), `JudgeFactory.create_judges`
  and `JudgeOrchestrator.run_evaluation`.

Python's `json.loads` is embedded as `Json.parse`, a fuel-indexed
recursive-descent parser for RFC 8259 JSON (the grammar `json.loads` accepts
in its default strict mode; the non-standard extensions NaN/Infinity are not
modelled, and a `\u` escape denoting a lone surrogate — representable in a
Python `str` but not in a Lean `String` — is mapped to the NUL character).
Python `str.strip()` is embedded as `pyStrip` over the ASCII whitespace
characters, and `"\n".join` as `joinLines`.

The LLM call made through `ChatCompletionAgent.invoke` is an external
capability (network call); it is passed in as an explicit oracle of type
`LLMCapability` receiving the judge data, the system-instruction value the
code computed (`meta.get("text", "System Prompt Missing")`) and the user
prompt, and returning either the sequence of chat messages or an upstream
failure.  `asyncio.gather` over the sub-judges is modelled by sequential
state threading: on success the collected notifications are exactly one per
sub-judge in task order, and on failure `run_evaluation` propagates the
exception and returns no report, which matches the observable behaviour of
the Python code (the partially mutated `SuperJudge` is discarded when
`run_evaluation` raises).
-/

/-- Python `str.isspace` for the ASCII whitespace characters recognised by
`str.strip()` (space, tab, newline, carriage return, vertical tab, form
feed).  Non-ASCII Unicode whitespace is not modelled. -/
def isPySpace (c : Char) : Bool :=
  c = ' ' ∨ c = '\t' ∨ c = '\n' ∨ c = '\r' ∨ c = '\x0b' ∨ c = '\x0c'

/-- Python `s.strip()`: remove leading and trailing whitespace. -/
def pyStrip (s : String) : String :=
  String.mk (((s.data.dropWhile isPySpace).reverse.dropWhile isPySpace).reverse)

/-- Python `"\n".join(lines)`. -/
def joinLines : List String → String
  | [] => ""
  | [l] => l
  | l :: l2 :: rest => l ++ "\n" ++ joinLines (l2 :: rest)

/-- List-level substring test: `needle` occurs contiguously in `hay`. -/
def listContains (needle : List Char) : List Char → Bool
  | [] => needle.isEmpty
  | c :: rest => needle.isPrefixOf (c :: rest) || listContains needle rest

/-- Python `needle in hay` for strings (substring containment). -/
def strContains (hay needle : String) : Bool :=
  listContains needle.data hay.data

/-- Values produced by Python `json.loads`.  Numbers keep their source
lexeme: no claim inspects numeric values, only the shape of the data. -/
inductive Json where
  | null
  | bool (b : Bool)
  | num (raw : String)
  | str (s : String)
  | arr (items : List Json)
  | obj (fields : List (String × Json))

/-- Skip JSON insignificant whitespace (space, tab, newline, carriage
return — exactly the set `json.loads` skips). -/
def jsonWs : List Char → List Char
  | [] => []
  | c :: rest =>
    if c = ' ' ∨ c = '\t' ∨ c = '\n' ∨ c = '\r' then jsonWs rest else c :: rest

/-- Longest leading run of decimal digits, and the remainder. -/
def takeDigits : List Char → List Char × List Char
  | [] => ([], [])
  | c :: rest =>
    if '0' ≤ c ∧ c ≤ '9' then
      let p := takeDigits rest
      (c :: p.1, p.2)
    else ([], c :: rest)

/-- Optional fraction part `.digits` of a JSON number. -/
def parseFrac (cs : List Char) : Option (List Char × List Char) :=
  match cs with
  | '.' :: r =>
    match takeDigits r with
    | ([], _) => none
    | (ds, rest) => some ('.' :: ds, rest)
  | _ => some ([], cs)

/-- Optional exponent part `[eE][+-]?digits` of a JSON number. -/
def parseExp (cs : List Char) : Option (List Char × List Char) :=
  match cs with
  | c :: r =>
    if c = 'e' ∨ c = 'E' then
      let p : List Char × List Char :=
        match r with
        | s :: r2 => if s = '+' ∨ s = '-' then ([s], r2) else ([], s :: r2)
        | [] => ([], [])
      match takeDigits p.2 with
      | ([], _) => none
      | (ds, rest) => some (c :: (p.1 ++ ds), rest)
    else some ([], c :: r)
  | [] => some ([], [])

/-- JSON number: `-? (0 | [1-9][0-9]*) frac? exp?`; leading zeros are
rejected, as in `json.loads`. -/
def parseNumber (cs : List Char) : Option (Json × List Char) :=
  let p : List Char × List Char :=
    match cs with
    | '-' :: r => (['-'], r)
    | _ => ([], cs)
  match takeDigits p.2 with
  | ([], _) => none
  | (d :: ds, rest) =>
    if d = '0' ∧ ds ≠ [] then none
    else
      match parseFrac rest with
      | none => none
      | some (frac, rest2) =>
        match parseExp rest2 with
        | none => none
        | some (ex, rest3) =>
          some (Json.num (String.mk (p.1 ++ d :: ds ++ frac ++ ex)), rest3)

/-- Value of one hexadecimal digit. -/
def hexDigitVal (c : Char) : Option Nat :=
  if '0' ≤ c ∧ c ≤ '9' then some (c.toNat - '0'.toNat)
  else if 'a' ≤ c ∧ c ≤ 'f' then some (c.toNat - 'a'.toNat + 10)
  else if 'A' ≤ c ∧ c ≤ 'F' then some (c.toNat - 'A'.toNat + 10)
  else none

/-- Four hexadecimal digits of a `\u` escape. -/
def parseHex4 : List Char → Option (Nat × List Char)
  | a :: b :: c :: d :: rest =>
    match hexDigitVal a, hexDigitVal b, hexDigitVal c, hexDigitVal d with
    | some x, some y, some z, some w => some (((x * 16 + y) * 16 + z) * 16 + w, rest)
    | _, _, _, _ => none
  | _ => none

/-- Body of a JSON string after the opening quote: strict mode, so raw
control characters are rejected and only the standard escapes are
accepted. -/
def parseStringBody : Nat → List Char → List Char → Option (String × List Char)
  | 0, _, _ => none
  | _ + 1, [], _ => none
  | fuel + 1, c :: rest, acc =>
    if c = '"' then some (String.mk acc.reverse, rest)
    else if c = '\\' then
      match rest with
      | [] => none
      | e :: rest2 =>
        if e = '"' then parseStringBody fuel rest2 ('"' :: acc)
        else if e = '\\' then parseStringBody fuel rest2 ('\\' :: acc)
        else if e = '/' then parseStringBody fuel rest2 ('/' :: acc)
        else if e = 'b' then parseStringBody fuel rest2 ('\x08' :: acc)
        else if e = 'f' then parseStringBody fuel rest2 ('\x0c' :: acc)
        else if e = 'n' then parseStringBody fuel rest2 ('\n' :: acc)
        else if e = 'r' then parseStringBody fuel rest2 ('\r' :: acc)
        else if e = 't' then parseStringBody fuel rest2 ('\t' :: acc)
        else if e = 'u' then
          match parseHex4 rest2 with
          | none => none
          | some (n, rest3) => parseStringBody fuel rest3 (Char.ofNat n :: acc)
        else none
    else if c.toNat < 0x20 then none
    else parseStringBody fuel rest (c :: acc)

mutual

/-- One JSON value, leading whitespace allowed; returns the value and the
unconsumed remainder. -/
def parseValue : Nat → List Char → Option (Json × List Char)
  | 0, _ => none
  | fuel + 1, cs =>
    match jsonWs cs with
    | [] => none
    | c :: rest =>
      if c = '\x7b' then
        match jsonWs rest with
        | '\x7d' :: r2 => some (Json.obj [], r2)
        | _ => parseObjRest fuel rest []
      else if c = '[' then
        match jsonWs rest with
        | ']' :: r2 => some (Json.arr [], r2)
        | _ => parseArrRest fuel rest []
      else if c = '"' then
        match parseStringBody fuel rest [] with
        | none => none
        | some (s, r) => some (Json.str s, r)
      else if c = 't' then
        match rest with
        | 'r' :: 'u' :: 'e' :: r => some (Json.bool true, r)
        | _ => none
      else if c = 'f' then
        match rest with
        | 'a' :: 'l' :: 's' :: 'e' :: r => some (Json.bool false, r)
        | _ => none
      else if c = 'n' then
        match rest with
        | 'u' :: 'l' :: 'l' :: r => some (Json.null, r)
        | _ => none
      else parseNumber (c :: rest)

/-- Elements of a non-empty JSON array, positioned after `[` or `,`. -/
def parseArrRest : Nat → List Char → List Json → Option (Json × List Char)
  | 0, _, _ => none
  | fuel + 1, cs, acc =>
    match parseValue fuel cs with
    | none => none
    | some (v, r) =>
      match jsonWs r with
      | ',' :: r2 => parseArrRest fuel r2 (acc ++ [v])
      | ']' :: r2 => some (Json.arr (acc ++ [v]), r2)
      | _ => none

/-- Members of a non-empty JSON object, positioned after the opening brace
or `,`. -/
def parseObjRest : Nat → List Char → List (String × Json) → Option (Json × List Char)
  | 0, _, _ => none
  | fuel + 1, cs, acc =>
    match jsonWs cs with
    | '"' :: r =>
      match parseStringBody fuel r [] with
      | none => none
      | some (k, r2) =>
        match jsonWs r2 with
        | ':' :: r3 =>
          match parseValue fuel r3 with
          | none => none
          | some (v, r4) =>
            match jsonWs r4 with
            | ',' :: r5 => parseObjRest fuel r5 (acc ++ [(k, v)])
            | '\x7d' :: r5 => some (Json.obj (acc ++ [(k, v)]), r5)
            | _ => none
        | _ => none
    | _ => none

end

/-- Embedding of Python `json.loads`: parse one JSON document with nothing
but whitespace after it.  The fuel is generous — every recursive step of
the parser consumes input, so `4 * (length + 1)` steps always suffice. -/
def Json.parse (s : String) : Option Json :=
  match parseValue (4 * (s.data.length + 1)) s.data with
  | none => none
  | some (v, rest) =>
    match jsonWs rest with
    | [] => some v
    | _ => none

/-- Python `dict` lookup for an object produced by `json.loads`: with
duplicate keys the later member wins, as in Python dict construction. -/
def pyLookup (key : String) : List (String × Json) → Option Json
  | [] => none
  | (k, v) :: rest =>
    match pyLookup key rest with
    | some r => some r
    | none => if k = key then some v else none

/-- Python `meta.get(key, dflt)`: only a `dict` has a `get` attribute, so a
parsed value that is not an object raises `AttributeError` (the Python
message names the concrete type; the embedding uses one fixed text). -/
def Json.pyGet (meta : Json) (key : String) (dflt : Json) : Except String Json :=
  match meta with
  | .obj fields =>
    match pyLookup key fields with
    | some v => Except.ok v
    | none => Except.ok dflt
  | _ => Except.error "AttributeError: no attribute get"

/-- Pydantic model `Judge` from `src/app/schemas/models.py` (the raw field
data; the validators are `Judge.validate` below).  `model` is the string
form of the `HttpUrl` field. -/
structure Judge where
  id : String
  name : String
  model : String
  metaprompt : String
deriving DecidableEq

/-- Pydantic model `Assembly` from `src/app/schemas/models.py`. -/
structure Assembly where
  id : String
  judges : List Judge
  roles : List String
deriving DecidableEq

/-- The field validator `Judge.metaprompt_must_be_json_serializable`:
`json.loads(v)` must succeed, and then Python evaluates
`"text" in v and "json" in v` — substring containment on the raw string
`v`, not key membership in the parsed object. -/
def metapromptValid (v : String) : Bool :=
  (Json.parse v).isSome && strContains v "text" && strContains v "json"

/-- `s.startswith(pre)` for the `model_must_be_azure_url` validator. -/
def strStartsWith (s pre : String) : Bool :=
  pre.data.isPrefixOf s.data

/-- Construction-time validation of a `Judge` (pydantic field constraints
and field validators): `name` at most 16 characters, `metaprompt` at most
60 characters, `model` must start with `https://` (URL well-formedness
beyond the scheme is elided — no claim depends on it), and the metaprompt
validator.  `id` is required but otherwise unconstrained. -/
def Judge.validate (j : Judge) : Bool :=
  decide (j.name.length ≤ 16) &&
  strStartsWith j.model "https://" &&
  decide (j.metaprompt.length ≤ 60) &&
  metapromptValid j.metaprompt

/-- Construction-time validation of an `Assembly`: every nested `Judge`
must validate, and the `roles_must_not_exceed_length` validator bounds each
role at 60 characters.  `id` is required but otherwise unconstrained — the
model declares no minimum length for it. -/
def Assembly.validate (a : Assembly) : Bool :=
  a.judges.all Judge.validate && a.roles.all (fun r => decide (r.length ≤ 60))

/-- One item of a chat response message: `FunctionCallContent`,
`FunctionResultContent`, or ordinary (text) content. -/
inductive ChatItem where
  | functionCall
  | functionResult
  | text
deriving DecidableEq

/-- Whether an item is a function-call or function-result marker, the test
`isinstance(item, (FunctionCallContent, FunctionResultContent))`. -/
def ChatItem.isFunctionContent : ChatItem → Bool
  | .functionCall => true
  | .functionResult => true
  | .text => false

/-- One message yielded by `agent.invoke(chat_history)`: its content items
and its textual `content`. -/
structure ChatMsg where
  items : List ChatItem
  content : String
deriving DecidableEq

/-- The filter `any(isinstance(item, (FunctionCallContent,
FunctionResultContent)) for item in msg_content.items)`. -/
def msgHasFunctionContent (m : ChatMsg) : Bool :=
  m.items.any ChatItem.isFunctionContent

/-- The notification payload `data` built in `ConcreteJudge.evaluate` and
appended by `SuperJudge.notify` — the Verdict of one evaluator run. -/
structure Verdict where
  judge_id : String
  judge_name : String
  result : String
deriving DecidableEq

/-- The message-collection loop of `ConcreteJudge.evaluate`: skip any
message containing a function-call or function-result item, keep the (raw)
content of every remaining message whose stripped content is non-empty. -/
def collectContent : List ChatMsg → List String
  | [] => []
  | m :: rest =>
    if msgHasFunctionContent m then collectContent rest
    else if pyStrip m.content = "" then collectContent rest
    else m.content :: collectContent rest

/-- `result_str = "\n".join(final_content).strip() or "[No output from
LLM]"` — join the kept contents with newlines, strip, and substitute the
sentinel when the result is empty (Python `or` on a falsy string). -/
def computeResult (msgs : List ChatMsg) : String :=
  let joined := pyStrip (joinLines (collectContent msgs))
  if joined = "" then "[No output from LLM]" else joined

/-- The LLM capability behind `ChatCompletionAgent.invoke`: an oracle from
the judge data, the system-instruction value the code extracted from the
metaprompt, and the user prompt, to either the response messages or an
upstream failure. -/
abbrev LLMCapability := Judge → Json → String → Except String (List ChatMsg)

/-- Pure core of `ConcreteJudge.evaluate`: parse the metaprompt with
`json.loads` (a parse failure raises `ValueError("Invalid JSON in
metaprompt: ...")`), extract the system instruction with
`meta.get("text", "System Prompt Missing")`, invoke the LLM and build the
notification payload.  The settings lookup and agent construction between
these steps read configuration only and do not affect the verdict.  The
returned `Verdict` is what `self.mediator.notify` receives when a mediator
is registered (in the orchestration below it always is). -/
def ConcreteJudge.judgeVerdict (llm : LLMCapability) (prompt : String) (j : Judge) :
    Except String Verdict :=
  match Json.parse j.metaprompt with
  | none => Except.error "Invalid JSON in metaprompt"
  | some meta =>
    match meta.pyGet "text" (Json.str "System Prompt Missing") with
    | Except.error e => Except.error e
    | Except.ok system_text =>
      match llm j system_text prompt with
      | Except.error e => Except.error e
      | Except.ok msgs =>
        Except.ok { judge_id := j.id, judge_name := j.name, result := computeResult msgs }

/-- State of a `SuperJudge`: its name, the registered sub-judges
(`_judges`, each a `ConcreteJudge` wrapping one `Judge`; the shared kernel
carries no observable state for these claims) and the collected
notifications (`_evaluations`). -/
structure SuperJudge where
  name : String
  judges : List Judge
  evaluations : List Verdict
deriving DecidableEq

/-- `SuperJudge.register_judge`: append the sub-judge and bind its mediator
to this coordinator (the binding is implicit in the functional model — a
registered judge always notifies the owning coordinator). -/
def SuperJudge.register_judge (s : SuperJudge) (j : Judge) : SuperJudge :=
  { s with judges := s.judges ++ [j] }

/-- `SuperJudge.notify`: append the payload on an `"evaluation_done"`
event; any other event is ignored. -/
def SuperJudge.notify (s : SuperJudge) (event : String) (data : Verdict) : SuperJudge :=
  if event = "evaluation_done" then { s with evaluations := s.evaluations ++ [data] } else s

/-- Rendering of one collected verdict in `SuperJudge.final_verdict`, the
f-string of `judge_name`, a literal arrow, and `result`. -/
def renderVerdict (ev : Verdict) : String :=
  ev.judge_name ++ " => " ++ ev.result

/-- `SuperJudge.final_verdict`: the sentinel when nothing was collected,
otherwise the newline-join of the rendered verdicts in collection order. -/
def SuperJudge.final_verdict (s : SuperJudge) : String :=
  match s.evaluations with
  | [] => "[No evaluations received]"
  | ev :: rest => joinLines ((ev :: rest).map renderVerdict)

/-- The fan-out of `JudgeEvaluationPlan.run_plan`: evaluate every sub-judge
and deliver each resulting notification to the coordinator.
`asyncio.gather` is modelled by sequential state threading; a failing
evaluation propagates (with `gather`'s default `return_exceptions=False`
the first exception is re-raised and the report is never produced, so the
partially mutated coordinator is unobservable). -/
def runSubJudges (llm : LLMCapability) (prompt : String) (s : SuperJudge) :
    List Judge → Except String SuperJudge
  | [] => Except.ok s
  | j :: rest =>
    match ConcreteJudge.judgeVerdict llm prompt j with
    | Except.error e => Except.error e
    | Except.ok v => runSubJudges llm prompt (s.notify "evaluation_done" v) rest

/-- `JudgeEvaluationPlan.run_plan`: run every sub-judge, then return the
coordinator's final verdict (step 2, an optional summary, is skipped in the
source). -/
def JudgeEvaluationPlan.run_plan (llm : LLMCapability) (s : SuperJudge) (prompt : String) :
    Except String (SuperJudge × String) :=
  match runSubJudges llm prompt s s.judges with
  | Except.error e => Except.error e
  | Except.ok s2 => Except.ok (s2, s2.final_verdict)

/-- `SuperJudge.evaluate`: build the plan for this prompt and run it (the
plan's return value is discarded by the caller). -/
def SuperJudge.evaluate (s : SuperJudge) (llm : LLMCapability) (prompt : String) :
    Except String SuperJudge :=
  match JudgeEvaluationPlan.run_plan llm s prompt with
  | Except.error e => Except.error e
  | Except.ok (s2, _) => Except.ok s2

/-- `JudgeFactory.create_judges`: one `ConcreteJudge` per `Judge` entry of
the assembly, all sharing one kernel (the kernel holds no observable state
for these claims, so a sub-judge is represented by its judge data). -/
def JudgeFactory.create_judges (a : Assembly) : List Judge :=
  a.judges

/-- `JudgeOrchestrator.run_evaluation`: build a fresh coordinator named
after the assembly, register every created sub-judge, run the evaluation,
and return the coordinator's final verdict. -/
def JudgeOrchestrator.run_evaluation (llm : LLMCapability) (assembly : Assembly)
    (prompt : String) : Except String String :=
  let sj0 : SuperJudge :=
    { name := "SuperJudge_" ++ assembly.id, judges := [], evaluations := [] }
  let sj1 := (JudgeFactory.create_judges assembly).foldl SuperJudge.register_judge sj0
  match sj1.evaluate llm prompt with
  | Except.error e => Except.error e
  | Except.ok s2 => Except.ok s2.final_verdict

theorem str_append_empty (s : String) : s ++ "" = s := by
  cases s with
  | mk data =>
    show String.mk (data ++ []) = String.mk data
    rw [List.append_nil]

theorem str_append_assoc (a b c : String) : a ++ b ++ c = a ++ (b ++ c) := by
  cases a with
  | mk da =>
    cases b with
    | mk db =>
      cases c with
      | mk dc =>
        show String.mk (da ++ db ++ dc) = String.mk (da ++ (db ++ dc))
        rw [List.append_assoc]

theorem joinLines_append (l1 l2 : List String) (h : l1 ≠ []) :
    ∃ r, joinLines (l1 ++ l2) = joinLines l1 ++ r := by
  induction l1 with
  | nil => exact absurd rfl h
  | cons a rest ih =>
    cases rest with
    | nil =>
      cases l2 with
      | nil => exact ⟨"", by rw [List.append_nil, str_append_empty]⟩
      | cons b bs =>
        exact ⟨"\n" ++ joinLines (b :: bs), by
          show joinLines (a :: b :: bs) = a ++ ("\n" ++ joinLines (b :: bs))
          rw [joinLines, str_append_assoc]⟩
    | cons b bs =>
      obtain ⟨r, hr⟩ := ih (by simp)
      refine ⟨r, ?_⟩
      show a ++ "\n" ++ joinLines ((b :: bs) ++ l2) = a ++ "\n" ++ joinLines (b :: bs) ++ r
      rw [hr]
      simp [str_append_assoc]

theorem foldl_register (js : List Judge) (s : SuperJudge) :
    List.foldl SuperJudge.register_judge s js = { s with judges := s.judges ++ js } := by
  induction js generalizing s with
  | nil => simp
  | cons j rest ih =>
    show List.foldl SuperJudge.register_judge (s.register_judge j) rest = _
    rw [ih]
    simp [SuperJudge.register_judge]

theorem runSubJudges_ok (llm : LLMCapability) (prompt : String) (js : List Judge)
    (s s2 : SuperJudge) (h : runSubJudges llm prompt s js = Except.ok s2) :
    ∃ vs : List Verdict,
      s2 = { s with evaluations := s.evaluations ++ vs } ∧
      List.Forall₂ (fun j v => ConcreteJudge.judgeVerdict llm prompt j = Except.ok v) js vs := by
  induction js generalizing s with
  | nil =>
    refine ⟨[], ?_, List.Forall₂.nil⟩
    rw [runSubJudges] at h
    cases h
    simp
  | cons j rest ih =>
    rw [runSubJudges] at h
    cases hv : ConcreteJudge.judgeVerdict llm prompt j with
    | error e => rw [hv] at h; cases h
    | ok v =>
      rw [hv] at h
      obtain ⟨vs, hs2, hall⟩ := ih (s.notify "evaluation_done" v) h
      refine ⟨v :: vs, ?_, List.Forall₂.cons hv hall⟩
      rw [hs2]
      simp [SuperJudge.notify]

theorem runSubJudges_err (llm : LLMCapability) (prompt : String) (js : List Judge)
    (s : SuperJudge) (j : Judge) (e : String) (hmem : j ∈ js)
    (hfail : ConcreteJudge.judgeVerdict llm prompt j = Except.error e) :
    ∃ e2, runSubJudges llm prompt s js = Except.error e2 := by
  induction js generalizing s with
  | nil => cases hmem
  | cons a rest ih =>
    rw [runSubJudges]
    cases hv : ConcreteJudge.judgeVerdict llm prompt a with
    | error e2 => exact ⟨e2, rfl⟩
    | ok v =>
      rcases List.mem_cons.mp hmem with heq | hrest
      · rw [← heq] at hv
        rw [hv] at hfail
        cases hfail
      · show ∃ e2, runSubJudges llm prompt (s.notify "evaluation_done" v) rest = Except.error e2
        exact ih (s.notify "evaluation_done" v) hrest

theorem collectContent_eq_nil (msgs : List ChatMsg)
    (h : ∀ m ∈ msgs, msgHasFunctionContent m = true ∨ pyStrip m.content = "") :
    collectContent msgs = [] := by
  induction msgs with
  | nil => rfl
  | cons m rest ih =>
    have hm := h m (List.mem_cons_self m rest)
    have hrest := ih (fun x hx => h x (List.mem_cons_of_mem m hx))
    rcases hm with hf | hw
    · rw [collectContent, hf]
      simpa using hrest
    · rw [collectContent, hw]
      rcases hb : msgHasFunctionContent m <;> simpa [hb] using hrest

theorem final_verdict_join (s : SuperJudge) (h : s.evaluations ≠ []) :
    SuperJudge.final_verdict s = joinLines (s.evaluations.map renderVerdict) := by
  cases hev : s.evaluations with
  | nil => exact absurd hev h
  | cons ev rest => simp [SuperJudge.final_verdict, hev]

theorem evaluate_ok (s s2 : SuperJudge) (llm : LLMCapability) (prompt : String)
    (h : SuperJudge.evaluate s llm prompt = Except.ok s2) :
    runSubJudges llm prompt s s.judges = Except.ok s2 := by
  rw [SuperJudge.evaluate, JudgeEvaluationPlan.run_plan] at h
  cases hrun : runSubJudges llm prompt s s.judges with
  | error e => rw [hrun] at h; cases h
  | ok s3 =>
    rw [hrun] at h
    have h2 : Except.ok s3 = Except.ok s2 := h
    exact h2

theorem evaluate_evaluations_append (s s2 : SuperJudge) (llm : LLMCapability)
    (prompt : String) (h : SuperJudge.evaluate s llm prompt = Except.ok s2) :
    ∃ t, s2.evaluations = s.evaluations ++ t := by
  obtain ⟨vs, hs2, _⟩ := runSubJudges_ok llm prompt s.judges s s2 (evaluate_ok s s2 llm prompt h)
  exact ⟨vs, by rw [hs2]⟩

theorem run_evaluation_eq (llm : LLMCapability) (a : Assembly) (prompt : String) :
    JudgeOrchestrator.run_evaluation llm a prompt =
      match runSubJudges llm prompt
          { name := "SuperJudge_" ++ a.id, judges := a.judges, evaluations := [] } a.judges with
      | Except.error e => Except.error e
      | Except.ok s2 => Except.ok s2.final_verdict := by
  have hsj : List.foldl SuperJudge.register_judge
      { name := "SuperJudge_" ++ a.id, judges := [], evaluations := [] } a.judges =
      ({ name := "SuperJudge_" ++ a.id, judges := a.judges, evaluations := [] } : SuperJudge) := by
    rw [foldl_register]
    rfl
  simp only [JudgeOrchestrator.run_evaluation, JudgeFactory.create_judges, hsj,
    SuperJudge.evaluate, JudgeEvaluationPlan.run_plan]
  cases runSubJudges llm prompt
      { name := "SuperJudge_" ++ a.id, judges := a.judges, evaluations := [] } a.judges with
  | error e => rfl
  | ok s2 => rfl

/-- C1 (counterexample): the claim quantifies over every coordinator state,
but on a coordinator with zero collected verdicts `final_verdict` returns
the sentinel `[No evaluations received]`, not the newline-join of the empty
verdict list (which is the empty string). -/
theorem c1_counterexample :
    SuperJudge.final_verdict { name := "SuperJudge", judges := [], evaluations := [] } ≠
      joinLines (List.map renderVerdict []) := by
  decide

/-- C1 (amended): for every coordinator state with at least one collected
verdict, `SuperJudge.final_verdict` returns the newline-join of the
collected verdicts, each rendered as the judge name, a literal arrow and
the result, one entry per collected verdict, in the order the
notifications were appended. -/
theorem c1_theorem (s : SuperJudge) (h : s.evaluations ≠ []) :
    SuperJudge.final_verdict s = joinLines (s.evaluations.map renderVerdict) :=
  final_verdict_join s h

/-- C1 (witness): the amended theorem evaluated at a one-verdict state. -/
theorem c1_witness :
    ({ name := "S", judges := [],
       evaluations := [{ judge_id := "1", judge_name := "Judge1", result := "ok" }] } :
        SuperJudge).evaluations ≠ [] ∧
    SuperJudge.final_verdict
        { name := "S", judges := [],
          evaluations := [{ judge_id := "1", judge_name := "Judge1", result := "ok" }] } =
      joinLines (List.map renderVerdict
        [{ judge_id := "1", judge_name := "Judge1", result := "ok" }]) :=
  ⟨by decide, c1_theorem _ (by decide)⟩

/-- C4: a panel with zero judges makes `run_evaluation` return exactly the
sentinel `[No evaluations received]`, and equivalently `final_verdict` on a
coordinator that has collected zero verdicts returns that sentinel. -/
theorem c4_theorem (llm : LLMCapability) (a : Assembly) (prompt : String)
    (h : a.judges = []) :
    JudgeOrchestrator.run_evaluation llm a prompt = Except.ok "[No evaluations received]" ∧
    ∀ s : SuperJudge, s.evaluations = [] →
      SuperJudge.final_verdict s = "[No evaluations received]" := by
  constructor
  · obtain ⟨i, js, ro⟩ := a
    change js = [] at h
    subst h
    rfl
  · intro s hs
    simp [SuperJudge.final_verdict, hs]

/-- C4 (witness): the theorem evaluated at a concrete empty panel. -/
theorem c4_witness :
    ({ id := "p0", judges := [], roles := ["qa"] } : Assembly).judges = [] ∧
    (JudgeOrchestrator.run_evaluation (fun _ _ _ => Except.ok [])
        { id := "p0", judges := [], roles := ["qa"] } "x" =
      Except.ok "[No evaluations received]" ∧
    ∀ s : SuperJudge, s.evaluations = [] →
      SuperJudge.final_verdict s = "[No evaluations received]") :=
  ⟨rfl, c4_theorem (fun _ _ _ => Except.ok []) { id := "p0", judges := [], roles := ["qa"] } "x" rfl⟩

/-- C5: when every response message is a function-call or function-result
marker, or has whitespace-only text, the computed result is exactly the
sentinel `[No output from LLM]`, and consequently the verdict recorded by
`ConcreteJudge.evaluate` (the payload handed to the mediator) carries that
sentinel as its result. -/
theorem c5_theorem (msgs : List ChatMsg)
    (h : ∀ m ∈ msgs, msgHasFunctionContent m = true ∨ pyStrip m.content = "") :
    computeResult msgs = "[No output from LLM]" ∧
    ∀ (j : Judge) (prompt : String) (v : Verdict),
      ConcreteJudge.judgeVerdict (fun _ _ _ => Except.ok msgs) prompt j = Except.ok v →
      v.result = "[No output from LLM]" := by
  have hc : computeResult msgs = "[No output from LLM]" := by
    rw [computeResult, collectContent_eq_nil msgs h]
    rfl
  refine ⟨hc, ?_⟩
  intro j prompt v hv
  rw [ConcreteJudge.judgeVerdict] at hv
  cases hp : Json.parse j.metaprompt with
  | none => rw [hp] at hv; cases hv
  | some meta =>
    rw [hp] at hv
    have hv4 : (match meta.pyGet "text" (Json.str "System Prompt Missing") with
        | Except.error e => Except.error e
        | Except.ok _ => Except.ok
            ({ judge_id := j.id, judge_name := j.name, result := computeResult msgs } :
              Verdict)) = Except.ok v := hv
    cases hg : meta.pyGet "text" (Json.str "System Prompt Missing") with
    | error e =>
      rw [hg] at hv4
      exact Except.noConfusion hv4
    | ok st =>
      rw [hg] at hv4
      have hv5 : Except.ok
          ({ judge_id := j.id, judge_name := j.name, result := computeResult msgs } : Verdict) =
          Except.ok v := hv4
      rw [← Except.ok.inj hv5]
      exact hc

/-- C5 (witness): the theorem evaluated on a function-call marker message
followed by a whitespace-only message, through a judge with a well-formed
metaprompt. -/
theorem c5_witness :
    (∀ m ∈ ([{ items := [ChatItem.functionCall], content := "fc" },
             { items := [], content := "  " }] : List ChatMsg),
        msgHasFunctionContent m = true ∨ pyStrip m.content = "") ∧
    (computeResult [{ items := [ChatItem.functionCall], content := "fc" },
                    { items := [], content := "  " }] = "[No output from LLM]" ∧
    ∀ (j : Judge) (prompt : String) (v : Verdict),
      ConcreteJudge.judgeVerdict
          (fun _ _ _ => Except.ok [{ items := [ChatItem.functionCall], content := "fc" },
                                   { items := [], content := "  " }]) prompt j = Except.ok v →
      v.result = "[No output from LLM]") :=
  ⟨by decide, c5_theorem _ (by decide)⟩

/-- C2 (counterexample): the claim allows N = 0, but for a panel of zero
judges the successful report is the sentinel `[No evaluations received]`,
which is not the newline-join of an empty collection of lines (that join is
the empty string). -/
theorem c2_counterexample :
    JudgeOrchestrator.run_evaluation (fun _ _ _ => Except.ok [])
        { id := "p", judges := [], roles := [] } "x" =
      Except.ok "[No evaluations received]" ∧
    ¬ ∃ L : List String, "[No evaluations received]" = joinLines L ∧
        L.length = ({ id := "p", judges := [], roles := [] } : Assembly).judges.length := by
  refine ⟨rfl, ?_⟩
  rintro ⟨L, hL, hlen⟩
  have hnil : L = [] := List.length_eq_zero.mp hlen
  rw [hnil] at hL
  exact absurd hL (by decide)

/-- C2 (amended): for every panel of N judges with N at least 1, a
successful `run_evaluation` report is the newline-join of exactly N lines,
one line per judge — each judge contributing the rendering of the one
verdict its evaluation emitted — with no duplicates and no omissions (the
panel of zero judges instead produces the sentinel, per C4). -/
theorem c2_theorem (llm : LLMCapability) (a : Assembly) (prompt r : String)
    (hne : a.judges ≠ [])
    (hok : JudgeOrchestrator.run_evaluation llm a prompt = Except.ok r) :
    ∃ L : List String, r = joinLines L ∧ L.length = a.judges.length ∧
      List.Forall₂ (fun j l => ∃ v, ConcreteJudge.judgeVerdict llm prompt j = Except.ok v ∧
        l = renderVerdict v) a.judges L := by
  rw [run_evaluation_eq] at hok
  cases hrun : runSubJudges llm prompt
      { name := "SuperJudge_" ++ a.id, judges := a.judges, evaluations := [] } a.judges with
  | error e => rw [hrun] at hok; exact Except.noConfusion hok
  | ok s2 =>
    rw [hrun] at hok
    have hr : r = s2.final_verdict := (Except.ok.inj hok).symm
    obtain ⟨vs, hs2, hall⟩ := runSubJudges_ok llm prompt a.judges _ s2 hrun
    have hev : s2.evaluations = vs := by rw [hs2]; simp
    have hlen : a.judges.length = vs.length := List.Forall₂.length_eq hall
    have hvs_ne : vs ≠ [] := by
      intro hnil
      rw [hnil] at hlen
      exact hne (List.length_eq_zero.mp hlen)
    refine ⟨vs.map renderVerdict, ?_, ?_, ?_⟩
    · rw [hr, final_verdict_join s2 (by rw [hev]; exact hvs_ne), hev]
    · rw [List.length_map, hlen]
    · rw [List.forall₂_map_right_iff]
      exact hall.imp (fun j v hjv => ⟨v, hjv, rfl⟩)

/-- C2 (witness): the amended theorem evaluated at a concrete one-judge
panel whose LLM capability answers with the text message `hi`. -/
theorem c2_witness :
    ({ id := "p1",
       judges := [{ id := "1", name := "J1", model := "https://x",
                    metaprompt := "\x7b\"text\":\"t\"\x7d" }],
       roles := [] } : Assembly).judges ≠ [] ∧
    JudgeOrchestrator.run_evaluation (fun _ _ _ => Except.ok [{ items := [], content := "hi" }])
        { id := "p1",
          judges := [{ id := "1", name := "J1", model := "https://x",
                       metaprompt := "\x7b\"text\":\"t\"\x7d" }],
          roles := [] } "q" = Except.ok "J1 => hi" ∧
    ∃ L : List String, "J1 => hi" = joinLines L ∧
      L.length = ({ id := "p1",
                    judges := [{ id := "1", name := "J1", model := "https://x",
                                 metaprompt := "\x7b\"text\":\"t\"\x7d" }],
                    roles := [] } : Assembly).judges.length ∧
      List.Forall₂ (fun j l => ∃ v,
          ConcreteJudge.judgeVerdict (fun _ _ _ => Except.ok [{ items := [], content := "hi" }])
            "q" j = Except.ok v ∧ l = renderVerdict v)
        ({ id := "p1",
           judges := [{ id := "1", name := "J1", model := "https://x",
                        metaprompt := "\x7b\"text\":\"t\"\x7d" }],
           roles := [] } : Assembly).judges L :=
  ⟨by decide, by rfl, c2_theorem _ _ "q" "J1 => hi" (by decide) (by rfl)⟩

/-- C3: if any single judge of the panel fails (its `evaluate` raises, for
example on a metaprompt that is not valid JSON), then `run_evaluation`
fails for the whole call — the `Except.error` result carries no report at
all, however many sibling judges would have succeeded. -/
theorem c3_theorem (llm : LLMCapability) (a : Assembly) (prompt : String)
    (j : Judge) (e : String) (hmem : j ∈ a.judges)
    (hfail : ConcreteJudge.judgeVerdict llm prompt j = Except.error e) :
    ∃ e2, JudgeOrchestrator.run_evaluation llm a prompt = Except.error e2 := by
  obtain ⟨e2, hrun⟩ := runSubJudges_err llm prompt a.judges
    { name := "SuperJudge_" ++ a.id, judges := a.judges, evaluations := [] } j e hmem hfail
  refine ⟨e2, ?_⟩
  rw [run_evaluation_eq, hrun]

/-- C3 (witness): a two-judge panel in which the second judge's metaprompt
is not valid JSON while the first is well-formed and would succeed; the
whole evaluation fails. -/
theorem c3_witness :
    ({ id := "2", name := "Bad", model := "https://x", metaprompt := "oops" } : Judge) ∈
      ({ id := "p2",
         judges := [{ id := "1", name := "Good", model := "https://x",
                      metaprompt := "\x7b\"text\":\"t\"\x7d" },
                    { id := "2", name := "Bad", model := "https://x", metaprompt := "oops" }],
         roles := [] } : Assembly).judges ∧
    ConcreteJudge.judgeVerdict (fun _ _ _ => Except.ok [{ items := [], content := "hi" }]) "q"
        { id := "2", name := "Bad", model := "https://x", metaprompt := "oops" } =
      Except.error "Invalid JSON in metaprompt" ∧
    ∃ e2, JudgeOrchestrator.run_evaluation
        (fun _ _ _ => Except.ok [{ items := [], content := "hi" }])
        { id := "p2",
          judges := [{ id := "1", name := "Good", model := "https://x",
                       metaprompt := "\x7b\"text\":\"t\"\x7d" },
                     { id := "2", name := "Bad", model := "https://x", metaprompt := "oops" }],
          roles := [] } "q" = Except.error e2 :=
  ⟨by decide, by rfl,
   c3_theorem (fun _ _ _ => Except.ok [{ items := [], content := "hi" }])
     { id := "p2",
       judges := [{ id := "1", name := "Good", model := "https://x",
                    metaprompt := "\x7b\"text\":\"t\"\x7d" },
                  { id := "2", name := "Bad", model := "https://x", metaprompt := "oops" }],
       roles := [] } "q"
     { id := "2", name := "Bad", model := "https://x", metaprompt := "oops" }
     "Invalid JSON in metaprompt" (by decide) (by rfl)⟩

/-- C6 (counterexample): a metaprompt that parses to structured data — a
JSON array — lacking the instruction field does NOT make `evaluate`
proceed with the placeholder: `meta.get` is only defined on a dict, so the
call raises `AttributeError` and the evaluation fails. -/
theorem c6_counterexample :
    Json.parse "[1]" = some (Json.arr [Json.num "1"]) ∧
    ConcreteJudge.judgeVerdict (fun _ _ _ => Except.ok []) "p"
        { id := "1", name := "J", model := "https://x", metaprompt := "[1]" } =
      Except.error "AttributeError: no attribute get" :=
  ⟨rfl, rfl⟩

/-- C6 (amended): a metaprompt that is not parseable as JSON makes
`ConcreteJudge.evaluate` fail with the configuration error `Invalid JSON in
metaprompt`; a metaprompt that parses to a JSON object lacking the `text`
field does not fail — evaluation proceeds with the placeholder instruction
`System Prompt Missing` (witnessed by an oracle that only answers when it
receives exactly that instruction text) and records the verdict computed
from the LLM's messages.  (A metaprompt parsing to a non-object JSON value
fails with an attribute error instead, per the counterexample.) -/
theorem c6_theorem :
    (∀ (j : Judge) (llm : LLMCapability) (prompt : String),
        Json.parse j.metaprompt = none →
        ConcreteJudge.judgeVerdict llm prompt j = Except.error "Invalid JSON in metaprompt") ∧
    (∀ (j : Judge) (fields : List (String × Json)) (msgs : List ChatMsg) (prompt : String),
        Json.parse j.metaprompt = some (Json.obj fields) →
        pyLookup "text" fields = none →
        ConcreteJudge.judgeVerdict
            (fun _ sys _ =>
              match sys with
              | Json.str s =>
                if s = "System Prompt Missing" then Except.ok msgs
                else Except.error "unexpected instructions"
              | _ => Except.error "unexpected instructions")
            prompt j =
          Except.ok { judge_id := j.id, judge_name := j.name, result := computeResult msgs }) := by
  constructor
  · intro j llm prompt h
    rw [ConcreteJudge.judgeVerdict, h]
  · intro j fields msgs prompt hparse hlook
    rw [ConcreteJudge.judgeVerdict, hparse]
    show (match (Json.obj fields).pyGet "text" (Json.str "System Prompt Missing") with
      | Except.error e => Except.error e
      | Except.ok system_text =>
        match (match system_text with
          | Json.str s =>
            if s = "System Prompt Missing" then Except.ok msgs
            else Except.error "unexpected instructions"
          | _ => Except.error "unexpected instructions") with
        | Except.error e => Except.error e
        | Except.ok msgs2 =>
          Except.ok ({ judge_id := j.id, judge_name := j.name, result := computeResult msgs2 } :
            Verdict)) = _
    rw [Json.pyGet, hlook]
    simp

/-- C6 (witness): both parts of the amended theorem at concrete judges —
one with the unparseable metaprompt `oops`, one with the empty-object
metaprompt. -/
theorem c6_witness :
    (Json.parse "oops" = none ∧
      ConcreteJudge.judgeVerdict (fun _ _ _ => Except.ok []) "p"
          { id := "1", name := "J", model := "https://x", metaprompt := "oops" } =
        Except.error "Invalid JSON in metaprompt") ∧
    (Json.parse "\x7b\x7d" = some (Json.obj []) ∧
      pyLookup "text" ([] : List (String × Json)) = none ∧
      ConcreteJudge.judgeVerdict
          (fun _ sys _ =>
            match sys with
            | Json.str s =>
              if s = "System Prompt Missing" then
                Except.ok ([] : List ChatMsg)
              else Except.error "unexpected instructions"
            | _ => Except.error "unexpected instructions")
          "p" { id := "2", name := "K", model := "https://x", metaprompt := "\x7b\x7d" } =
        Except.ok { judge_id := "2", judge_name := "K", result := "[No output from LLM]" }) :=
  ⟨⟨rfl, c6_theorem.1 { id := "1", name := "J", model := "https://x", metaprompt := "oops" }
      (fun _ _ _ => Except.ok []) "p" rfl⟩,
   ⟨rfl, rfl, c6_theorem.2 { id := "2", name := "K", model := "https://x", metaprompt := "\x7b\x7d" }
      [] [] "p" rfl rfl⟩⟩

/-- C7 (code evaluation at the failing input): the metaprompt
`'\x7b"text": "Test Prompt"\x7d'` — the fixture the repository's own test
suite constructs a Judge from — is valid JSON whose object carries a
textual `text` field, yet the construction-time validator rejects it,
because the validator tests substring containment of `"text"` and `"json"`
in the raw string rather than key membership in the parsed object.
Conversely the JSON string literal `"text json"`, which has no instruction
field at all, is accepted.  The full `Judge.validate` agrees with
`metapromptValid` on the test fixture. -/
theorem c7_code_evaluation :
    Json.parse "\x7b\"text\": \"Test Prompt\"\x7d" =
      some (Json.obj [("text", Json.str "Test Prompt")]) ∧
    metapromptValid "\x7b\"text\": \"Test Prompt\"\x7d" = false ∧
    Judge.validate { id := "1", name := "Judge1", model := "https://example.com/model1",
                     metaprompt := "\x7b\"text\": \"Test Prompt\"\x7d" } = false ∧
    Json.parse "\"text json\"" = some (Json.str "text json") ∧
    metapromptValid "\"text json\"" = true :=
  ⟨rfl, rfl, rfl, rfl, rfl⟩

/-- C8 (code evaluation at the failing input): the scenario's judge
carries metaprompt `'\x7b"text":"Be harsh"\x7d'`; the construction-time
validator rejects it (no `"json"` substring), so the scenario's panel can
never be constructed through the models — while the orchestration core
itself, run on that panel data with an LLM capability answering
`Looks fine.`, returns exactly `Judge1 => Looks fine.` as the claim
states. -/
theorem c8_code_evaluation :
    metapromptValid "\x7b\"text\":\"Be harsh\"\x7d" = false ∧
    Judge.validate { id := "1", name := "Judge1", model := "https://x/m1",
                     metaprompt := "\x7b\"text\":\"Be harsh\"\x7d" } = false ∧
    JudgeOrchestrator.run_evaluation
        (fun _ _ _ => Except.ok [{ items := [ChatItem.text], content := "Looks fine." }])
        { id := "p1",
          judges := [{ id := "1", name := "Judge1", model := "https://x/m1",
                       metaprompt := "\x7b\"text\":\"Be harsh\"\x7d" }],
          roles := ["qa"] }
        "Evaluate: hello" = Except.ok "Judge1 => Looks fine." :=
  ⟨rfl, rfl, rfl⟩

theorem assembly_validate_roles (a : Assembly) (hv : Assembly.validate a = true) :
    ∀ r ∈ a.roles, r.length ≤ 60 := by
  intro r hr
  rw [Assembly.validate, Bool.and_eq_true] at hv
  have h2 := hv.2
  rw [List.all_eq_true] at h2
  exact of_decide_eq_true (h2 r hr)

/-- C9 (counterexample): the Assembly model declares no minimum length for
`id`, so an assembly with the empty id — which the claim says must be
rejected — validates successfully. -/
theorem c9_counterexample :
    Assembly.validate { id := "", judges := [], roles := ["qa"] } = true ∧
    ("" : String).length = 0 :=
  ⟨rfl, rfl⟩

/-- C9 (amended): for every Assembly that constructs successfully, each of
its role strings is at most 60 characters, and construction fails for any
assembly containing a longer role.  The id is required but may be empty —
the model imposes no non-emptiness bound on it. -/
theorem c9_theorem (a : Assembly) :
    (Assembly.validate a = true → ∀ r ∈ a.roles, r.length ≤ 60) ∧
    ((∃ r ∈ a.roles, 60 < r.length) → Assembly.validate a = false) := by
  refine ⟨assembly_validate_roles a, ?_⟩
  rintro ⟨r, hr, hlen⟩
  cases hv : Assembly.validate a with
  | false => rfl
  | true => exact absurd hlen (not_lt.mpr (assembly_validate_roles a hv r hr))

/-- C9 (witness): both directions of the amended theorem at concrete
assemblies — one with a short role, one with a 61-character role. -/
theorem c9_witness :
    (Assembly.validate { id := "a1", judges := [], roles := ["qa"] } = true ∧
      ∀ r ∈ ({ id := "a1", judges := [], roles := ["qa"] } : Assembly).roles, r.length ≤ 60) ∧
    ((∃ r ∈ ({ id := "a1", judges := [],
               roles := [String.mk (List.replicate 61 'x')] } : Assembly).roles,
        60 < r.length) ∧
      Assembly.validate { id := "a1", judges := [],
                          roles := [String.mk (List.replicate 61 'x')] } = false) :=
  ⟨⟨rfl, (c9_theorem { id := "a1", judges := [], roles := ["qa"] }).1 rfl⟩,
   ⟨⟨String.mk (List.replicate 61 'x'), by decide, by decide⟩,
    (c9_theorem { id := "a1", judges := [],
                  roles := [String.mk (List.replicate 61 'x')] }).2
      ⟨String.mk (List.replicate 61 'x'), by decide, by decide⟩⟩⟩

/-- C10: the collected-verdict list only grows — `notify` appends (or, for
an unrecognised event, leaves the list unchanged), `register_judge` never
touches it, a successful `evaluate` only appends, and `final_verdict` is a
pure function of the state (in this functional model it cannot mutate
anything by construction).  Consequently a second `evaluate` on the same
coordinator yields a report that extends the first report: every line from
the first run is still present, followed by the new ones. -/
theorem c10_theorem :
    (∀ (s : SuperJudge) (event : String) (d : Verdict),
        ∃ t, (s.notify event d).evaluations = s.evaluations ++ t) ∧
    (∀ (s : SuperJudge) (j : Judge),
        (s.register_judge j).evaluations = s.evaluations) ∧
    (∀ (s s2 : SuperJudge) (llm : LLMCapability) (prompt : String),
        s.evaluate llm prompt = Except.ok s2 →
        ∃ t, s2.evaluations = s.evaluations ++ t) ∧
    (∀ (s s1 s2 : SuperJudge) (llm1 llm2 : LLMCapability) (p1 p2 : String),
        s.evaluate llm1 p1 = Except.ok s1 → s1.evaluate llm2 p2 = Except.ok s2 →
        s1.evaluations ≠ [] →
        ∃ rest, s2.final_verdict = s1.final_verdict ++ rest) := by
  refine ⟨?_, ?_, ?_, ?_⟩
  · intro s event d
    rw [SuperJudge.notify]
    split
    · exact ⟨[d], rfl⟩
    · exact ⟨[], by simp⟩
  · intro s j
    rfl
  · intro s s2 llm prompt h
    exact evaluate_evaluations_append s s2 llm prompt h
  · intro s s1 s2 llm1 llm2 p1 p2 h1 h2 hne
    obtain ⟨t, ht⟩ := evaluate_evaluations_append s1 s2 llm2 p2 h2
    have h1ne : s1.evaluations.map renderVerdict ≠ [] := by
      intro hnil
      exact hne (List.map_eq_nil_iff.mp hnil)
    obtain ⟨r, hr⟩ := joinLines_append (s1.evaluations.map renderVerdict)
      (t.map renderVerdict) h1ne
    refine ⟨r, ?_⟩
    have hs2ne : s2.evaluations ≠ [] := by
      rw [ht]
      intro hnil
      exact hne (List.append_eq_nil.mp hnil).1
    rw [final_verdict_join s2 hs2ne, ht, List.map_append, hr, final_verdict_join s1 hne]

/-- Concrete judge used by the C10 witness. -/
def c10_judge : Judge :=
  { id := "1", name := "J", model := "https://x", metaprompt := "\x7b\"text\":\"t\"\x7d" }

/-- Concrete LLM capability used by the C10 witness. -/
def c10_llm : LLMCapability :=
  fun _ _ _ => Except.ok [{ items := [], content := "hi" }]

/-- Concrete verdict produced by `c10_judge` under `c10_llm`. -/
def c10_verdict : Verdict :=
  { judge_id := "1", judge_name := "J", result := "hi" }

/-- C10 (witness): two consecutive evaluations of a one-judge coordinator;
the second report extends the first and the verdict list only grew. -/
theorem c10_witness :
    SuperJudge.evaluate { name := "S", judges := [c10_judge], evaluations := [] } c10_llm "p" =
      Except.ok { name := "S", judges := [c10_judge], evaluations := [c10_verdict] } ∧
    SuperJudge.evaluate { name := "S", judges := [c10_judge], evaluations := [c10_verdict] }
        c10_llm "p" =
      Except.ok { name := "S", judges := [c10_judge],
                  evaluations := [c10_verdict, c10_verdict] } ∧
    ({ name := "S", judges := [c10_judge], evaluations := [c10_verdict] } :
        SuperJudge).evaluations ≠ [] ∧
    (∃ t, ({ name := "S", judges := [c10_judge], evaluations := [c10_verdict, c10_verdict] } :
        SuperJudge).evaluations =
      ({ name := "S", judges := [c10_judge], evaluations := [c10_verdict] } :
        SuperJudge).evaluations ++ t) ∧
    (∃ rest, SuperJudge.final_verdict
        { name := "S", judges := [c10_judge], evaluations := [c10_verdict, c10_verdict] } =
      SuperJudge.final_verdict
        { name := "S", judges := [c10_judge], evaluations := [c10_verdict] } ++ rest) :=
  ⟨by rfl, by rfl, by decide,
   c10_theorem.2.2.1 { name := "S", judges := [c10_judge], evaluations := [c10_verdict] }
     { name := "S", judges := [c10_judge], evaluations := [c10_verdict, c10_verdict] }
     c10_llm "p" (by rfl),
   c10_theorem.2.2.2 { name := "S", judges := [c10_judge], evaluations := [] }
     { name := "S", judges := [c10_judge], evaluations := [c10_verdict] }
     { name := "S", judges := [c10_judge], evaluations := [c10_verdict, c10_verdict] }
     c10_llm c10_llm "p" "p" (by rfl) (by rfl) (by decide)⟩
